import Mathlib

/-!
Verification development for the TradeBerg chat repository.

The definitions below are a shallow embedding of the two source files:
* `src/components/chat/TradebergChat.tsx` — chat state, attachment handling,
  submit flow, prompt tray;
* `src/lib/api/backend.ts` — the mock streaming backend.

The cross-origin capture operation (`handleCaptureClick`) is left as a
placeholder in the source (its body is a single `console.log`); where a
definition has to stand in for that missing implementation it is modelled
from the specification and its doc comment says so explicitly.
-/

namespace Tradeberg

/-- The `Role` union from `TradebergChat.tsx`: `"user" | "assistant"`. -/
inductive Role where
  | user
  | assistant
deriving DecidableEq, Repr

/-- The tag of the `Attachment` discriminated union from `TradebergChat.tsx`:
`"image" | "url" | "file"`. -/
inductive AttachmentType where
  | image
  | url
  | file
deriving DecidableEq, Repr

/-- The `Attachment` type from `TradebergChat.tsx`: a tag together with the
string payload (`data`). -/
structure Attachment where
  type : AttachmentType
  data : String
deriving DecidableEq, Repr

/-- The `ChatMessage` type from `TradebergChat.tsx`. In the source the
`attachments` field is optional; an absent field is modelled as `[]`. -/
structure ChatMessage where
  role : Role
  content : String
  attachments : List Attachment
deriving DecidableEq, Repr

/-- The pieces of `ChatInterface` React state that the claims are about:
`messages`, `attachments` (the pending list) and `isLoading`. -/
structure ChatState where
  messages : List ChatMessage
  attachments : List Attachment
  isLoading : Bool
deriving DecidableEq, Repr

/-- JavaScript's `String.prototype.trim`, modelled character-wise: strip
whitespace from both ends. -/
def jsTrim (s : String) : String :=
  String.mk (((s.toList.dropWhile Char.isWhitespace).reverse.dropWhile
    Char.isWhitespace).reverse)

/-- `handleSetAttachment` from `TradebergChat.tsx`:
`if (!att) return; setAttachments((prev) => [...prev, att])`. -/
def handleSetAttachment (s : ChatState) (att : Option Attachment) : ChatState :=
  match att with
  | none => s
  | some a => { s with attachments := s.attachments ++ [a] }

/-- A sequence of `handleSetAttachment` calls, one per element. -/
def addAttachments (s : ChatState) (atts : List Attachment) : ChatState :=
  atts.foldl (fun st a => handleSetAttachment st (some a)) s

/-- `handleFileChange` from `TradebergChat.tsx`: if a file was picked,
`onAttachment({ type: "file", data: file.name })`; otherwise nothing. -/
def handleFileChange (s : ChatState) (file : Option String) : ChatState :=
  match file with
  | none => s
  | some name => handleSetAttachment s (some { type := AttachmentType.file, data := name })

/-- The `AttachWebpageModal` add path from `TradebergChat.tsx`:
`if (url.trim()) onAdd(url.trim())`, and `onAdd` calls
`handleSetAttachment({ type: "url", data: url })`. -/
def attachWebpageAdd (s : ChatState) (url : String) : ChatState :=
  if jsTrim url == "" then s
  else handleSetAttachment s (some { type := AttachmentType.url, data := jsTrim url })

/-- `removeAtIndex` from `TradebergChat.tsx`:
`setAttachments((prev) => prev.filter((_, i) => i !== index))`.
JavaScript's `filter` hands the callback each element's index, which the
`enum` rendering makes explicit. -/
def removeAtIndex (prev : List Attachment) (index : Nat) : List Attachment :=
  (prev.enum.filter (fun p => p.1 != index)).map Prod.snd

/-- How one run of the `handleSubmit` async body ends, abstracting the three
`await` results that decide its control flow: `createChat` fails; the stream
is read to completion yielding `full`; the read throws an `AbortError` after
`buffered` text was accumulated; the read throws some other error. -/
inductive StreamOutcome where
  | createChatFailed
  | success (full : String)
  | abortedWith (buffered : String)
  | otherError
deriving DecidableEq, Repr

/-- `handleSubmit` from `TradebergChat.tsx`, as a state transformer. The
guard is `if (isLoading || (!prompt.trim() && attachments.length === 0)) return`.
Past the guard the code pushes the user message carrying the current pending
attachments, clears the pending list and sets `isLoading`; then, depending on
how the awaited stream ends: on success it appends the assistant message; on
an `AbortError` it appends the assistant message only when the buffered text
is non-empty; on any other error it appends nothing; a failed `createChat`
returns early. The `finally` block resets `isLoading`. -/
def handleSubmit (s : ChatState) (prompt : String) (outcome : StreamOutcome) : ChatState :=
  if s.isLoading || (jsTrim prompt == "" && s.attachments.length == 0) then s
  else
    let s1 : ChatState :=
      { s with
        messages := s.messages ++
          [{ role := Role.user, content := prompt, attachments := s.attachments }],
        attachments := [],
        isLoading := true }
    let s2 : ChatState :=
      match outcome with
      | StreamOutcome.createChatFailed => s1
      | StreamOutcome.success full =>
          { s1 with messages := s1.messages ++
              [{ role := Role.assistant, content := full, attachments := [] }] }
      | StreamOutcome.abortedWith buffered =>
          if buffered == "" then s1
          else
            { s1 with messages := s1.messages ++
                [{ role := Role.assistant, content := buffered, attachments := [] }] }
      | StreamOutcome.otherError => s1
    { s2 with isLoading := false }

/-! ### The capture operation

In the source, `handleCaptureClick` is an explicit placeholder: its body is a
single `console.log` with a comment instructing a candidate to implement the
capture and then call `onAttachment({ type: "image", data: yourDataUrl })`.
The capture operation itself is therefore missing from `src/` and is modelled
from the specification below. -/

/-- The capture error taxonomy of spec §7:
`CaptureUnsupported`, `CaptureTimeout`, `CaptureInternal`. -/
inductive CaptureError where
  | captureUnsupported
  | captureTimeout
  | captureInternal
deriving DecidableEq, Repr

/-- An image payload is "a self-contained encoded bitmap (data URL)"
(spec §3, §4.1): checked here as carrying the image data-URL scheme. -/
def isImageDataUrl (s : String) : Bool :=
  s.toList.take 11 == "data:image/".toList

/-- Modelled from the spec: the environment the capture runs in — whether the
runtime has the needed capture primitive (§7 `CaptureUnsupported`), and what
the cooperative export channel delivers within the timeout: `none` when the
widget never responds (§7 `CaptureTimeout`), `some r` for a response `r`
(malformed responses yield `CaptureInternal`, §7). -/
structure CaptureEnv where
  capabilityAvailable : Bool
  widgetResponse : Option String
deriving DecidableEq, Repr

/-- Modelled from the spec: the missing capture operation,
`capture() -> Promise resolving to { image: dataURL } or a typed failure`
(§6), with the failure taxonomy of §7: no capability ⇒ `CaptureUnsupported`;
no response within the bounded wait ⇒ `CaptureTimeout`; a malformed
(non-data-URL) response ⇒ `CaptureInternal` ("the caller must never receive a
corrupt or partial image silently mislabeled as success", §4.1). -/
def capture (env : CaptureEnv) : Except CaptureError String :=
  if !env.capabilityAvailable then Except.error CaptureError.captureUnsupported
  else
    match env.widgetResponse with
    | none => Except.error CaptureError.captureTimeout
    | some r =>
        if isImageDataUrl r then Except.ok r
        else Except.error CaptureError.captureInternal

/-- Modelled from the spec: the full `handleCaptureClick` flow (§4.2 together
with the placeholder's own instructions): on success the image is handed to
the attachment sink via `onAttachment({ type: "image", data: dataUrl })`; on
failure nothing is attached and the failure is surfaced to the user (returned
here as the second component). -/
def handleCaptureClick (env : CaptureEnv) (s : ChatState) :
    ChatState × Option CaptureError :=
  match capture env with
  | Except.ok img =>
      (handleSetAttachment s (some { type := AttachmentType.image, data := img }), none)
  | Except.error e => (s, some e)

/-! ### The capture trigger state machine

`PromptTray` keeps an `isCapturing` flag and renders the camera button with
`disabled={isCapturing}`, so a click while a capture is pending reaches no
handler. The placeholder never drives the flag, so the Capturing state and
its transitions are modelled from spec §4.2
(Idle → Capturing → {Succeeded, Failed} → Idle). -/

/-- Modelled from the spec: the trigger's observable state — the
`isCapturing` flag of `PromptTray` plus counters of capture attempts started
and resolved, used to express "at most one capture in flight". -/
structure TriggerState where
  isCapturing : Bool
  started : Nat
  resolved : Nat
deriving DecidableEq, Repr

/-- The trigger's events: the user clicks the camera button, or the pending
capture resolves (with success or failure alike returning the trigger to
Idle, spec §4.2). -/
inductive TriggerEvent where
  | click
  | resolve
deriving DecidableEq, Repr

/-- Modelled from the spec: one step of the trigger state machine (§4.2).
A click while Idle starts a capture; a click while Capturing is a no-op
(the button is rendered with `disabled={isCapturing}`); a resolution while
Capturing returns to Idle. -/
def triggerStep (s : TriggerState) (e : TriggerEvent) : TriggerState :=
  match e with
  | TriggerEvent.click =>
      if s.isCapturing then s
      else { s with isCapturing := true, started := s.started + 1 }
  | TriggerEvent.resolve =>
      if s.isCapturing then
        { s with isCapturing := false, resolved := s.resolved + 1 }
      else s

/-- The trigger's initial state: Idle, nothing started. -/
def triggerInit : TriggerState :=
  { isCapturing := false, started := 0, resolved := 0 }

/-- Captures currently in flight: started but not yet resolved. -/
def inFlight (s : TriggerState) : Nat :=
  s.started - s.resolved

/-- Run the trigger over a sequence of events from the initial state. -/
def triggerRun (events : List TriggerEvent) : TriggerState :=
  events.foldl triggerStep triggerInit

/-! ### The mock streaming backend (`src/lib/api/backend.ts`) -/

/-- The canned reply text of `chatApi.streamMessage` in `backend.ts`. -/
def mockText : String :=
  "This is a mock response from TradeBerg. In the real app, this would be a streaming AI response analyzing the market data."

/-- Whether the abort signal has fired by tick `tick`: `abortAt = some t`
means `signal.aborted` becomes true at tick `t`; `none` means the signal
never fires. -/
def abortedBy (abortAt : Option Nat) (tick : Nat) : Bool :=
  match abortAt with
  | none => false
  | some t => t ≤ tick

/-- The interval body of `streamMessage` in `backend.ts`, one chunk per tick:
if `signal.aborted`, close; if the cursor has passed the end of the text,
close; otherwise enqueue `text.slice(i, i + 5)` and advance the cursor by 5.
`rest` is the text from the cursor on, so `tick` counts elapsed ticks. -/
def streamLoop (rest : List Char) (tick : Nat) (abortAt : Option Nat) :
    List (List Char) :=
  if abortedBy abortAt tick then []
  else
    match rest with
    | [] => []
    | c :: cs => (c :: cs).take 5 :: streamLoop ((c :: cs).drop 5) (tick + 1) abortAt
termination_by rest.length
decreasing_by
  simp only [List.length_drop, List.length_cons]
  omega

/-- `chatApi.streamMessage` from `backend.ts`: the complete sequence of text
chunks the simulated stream enqueues before closing, given when (if ever)
the abort signal fires. -/
def streamMessage (abortAt : Option Nat) : List (List Char) :=
  streamLoop mockText.toList 0 abortAt

/-! ### Helper lemmas -/

/-- Mapping `Prod.snd` over `enumFrom` recovers the list. -/
theorem enumFrom_map_snd_eq {α : Type} (l : List α) :
    ∀ n, (List.enumFrom n l).map Prod.snd = l := by
  induction l with
  | nil => intro n; rfl
  | cons a t ih =>
      intro n
      simp only [List.enumFrom, List.map_cons, ih (n + 1)]

/-- Filtering out an index smaller than every index present keeps everything. -/
theorem enumFrom_filter_ne_of_lt {α : Type} (l : List α) :
    ∀ n index, index < n →
      (List.enumFrom n l).filter (fun p => p.1 != index) = List.enumFrom n l := by
  induction l with
  | nil => intro n index _; rfl
  | cons a t ih =>
      intro n index h
      have hne : ((n, a).1 != index) = true := by
        simp only [bne_iff_ne, ne_eq]
        omega
      simp only [List.enumFrom, List.filter_cons, hne, if_true, ih (n + 1) index (by omega)]

/-- The index-filter rendering of JavaScript `filter((_, i) => i !== index)`,
generalized over the starting index of the enumeration. -/
theorem enumFrom_filter_ne_map_snd {α : Type} (l : List α) :
    ∀ n index, n ≤ index → index - n < l.length →
      ((List.enumFrom n l).filter (fun p => p.1 != index)).map Prod.snd
        = l.take (index - n) ++ l.drop (index - n + 1) := by
  induction l with
  | nil =>
      intro n index _ h2
      simp at h2
  | cons a t ih =>
      intro n index h1 h2
      rcases Nat.eq_or_lt_of_le h1 with heq | hlt
      · subst heq
        have hcond : ((n, a).1 != n) = false := by simp
        simp [List.enumFrom, List.filter_cons, hcond,
          enumFrom_filter_ne_of_lt t (n + 1) n (by omega), enumFrom_map_snd_eq,
          Nat.sub_self, List.drop_succ_cons]
      · have hcond : ((n, a).1 != index) = true := by
          simp only [bne_iff_ne, ne_eq]
          omega
        have hk : index - n = (index - (n + 1)) + 1 := by omega
        have ht := ih (n + 1) index (by omega) (by
          simp only [List.length_cons] at h2
          omega)
        simp only [List.enumFrom, List.filter_cons, hcond, if_true, List.map_cons, ht, hk,
          List.take_succ_cons, List.drop_succ_cons, List.cons_append]

/-! ### Claims -/

/-- Claim C10: removing the pending attachment at a valid index `i` yields
the original list with exactly the `i`-th element deleted; all other elements
are unchanged and keep their relative order. -/
theorem removeAtIndex_deletes_exactly_one (prev : List Attachment) (index : Nat)
    (h : index < prev.length) :
    removeAtIndex prev index = prev.take index ++ prev.drop (index + 1) := by
  have hmain := enumFrom_filter_ne_map_snd prev 0 index (Nat.zero_le index) (by omega)
  simpa only [removeAtIndex, List.enum, Nat.sub_zero] using hmain

/-- Witness for C10 at a concrete three-element list and index 1. -/
theorem removeAtIndex_deletes_exactly_one_witness :
    1 < (([⟨AttachmentType.image, "a"⟩, ⟨AttachmentType.url, "b"⟩,
        ⟨AttachmentType.file, "c"⟩] : List Attachment)).length
    ∧ removeAtIndex [⟨AttachmentType.image, "a"⟩, ⟨AttachmentType.url, "b"⟩,
        ⟨AttachmentType.file, "c"⟩] 1
      = ([⟨AttachmentType.image, "a"⟩, ⟨AttachmentType.url, "b"⟩,
        ⟨AttachmentType.file, "c"⟩] : List Attachment).take 1
        ++ ([⟨AttachmentType.image, "a"⟩, ⟨AttachmentType.url, "b"⟩,
        ⟨AttachmentType.file, "c"⟩] : List Attachment).drop 2 :=
  ⟨by decide, removeAtIndex_deletes_exactly_one _ 1 (by decide)⟩

/-- Claim C9: submitting while a response is already loading, or submitting a
prompt that trims to empty while no attachments are pending, leaves the whole
chat state unchanged. -/
theorem handleSubmit_guard_noop (s : ChatState) (prompt : String) (o : StreamOutcome)
    (h : s.isLoading = true ∨ (jsTrim prompt = "" ∧ s.attachments = [])) :
    handleSubmit s prompt o = s := by
  unfold handleSubmit
  rcases h with h | ⟨h1, h2⟩
  · simp [h]
  · simp [h1, h2]

/-- Witness for C9: submitting while loading, at a concrete state. -/
theorem handleSubmit_guard_noop_witness :
    ((⟨[], [], true⟩ : ChatState).isLoading = true
      ∨ (jsTrim "hello" = "" ∧ (⟨[], [], true⟩ : ChatState).attachments = []))
    ∧ handleSubmit ⟨[], [], true⟩ "hello" (StreamOutcome.success "ok") = ⟨[], [], true⟩ :=
  ⟨Or.inl rfl, handleSubmit_guard_noop _ _ _ (Or.inl rfl)⟩

/-- An attachment's tag is one of the three members of the union type. -/
def kindOk (a : Attachment) : Bool :=
  a.type == AttachmentType.image || a.type == AttachmentType.url
    || a.type == AttachmentType.file

/-- Claim C8: every attachment carries a kind drawn from exactly
{image, url, file}, and every operation that touches the pending-attachments
list (adding via sink, file pick, webpage modal, capture; removal; submit)
keeps every element's kind within that set. -/
theorem attachment_kinds_closed :
    (∀ a : Attachment, kindOk a = true)
    ∧ (∀ s att, ((handleSetAttachment s att).attachments.all kindOk) = true)
    ∧ (∀ s file, ((handleFileChange s file).attachments.all kindOk) = true)
    ∧ (∀ s url, ((attachWebpageAdd s url).attachments.all kindOk) = true)
    ∧ (∀ l index, ((removeAtIndex l index).all kindOk) = true)
    ∧ (∀ s prompt o, ((handleSubmit s prompt o).attachments.all kindOk) = true)
    ∧ (∀ env s, ((handleCaptureClick env s).1.attachments.all kindOk) = true) := by
  have hall : ∀ a : Attachment, kindOk a = true := by
    intro a
    rcases a with ⟨t, d⟩
    cases t <;> rfl
  have hlist : ∀ l : List Attachment, l.all kindOk = true := by
    intro l
    exact List.all_eq_true.mpr fun a _ => hall a
  exact ⟨hall, fun _ _ => hlist _, fun _ _ => hlist _, fun _ _ => hlist _,
    fun _ _ => hlist _, fun _ _ _ => hlist _, fun _ _ => hlist _⟩

/-- Claim C1: every capture invocation ends in exactly one of the typed
outcomes — success carrying a well-formed image data URL that is handed to
the attachment sink, or one of the three typed failures
`CaptureUnsupported`, `CaptureTimeout`, `CaptureInternal`; never an untyped
or absent outcome. -/
theorem handleCaptureClick_typed_outcome (env : CaptureEnv) (s : ChatState) :
    (∃ img, capture env = Except.ok img ∧ isImageDataUrl img = true ∧
        handleCaptureClick env s
          = ({ s with attachments :=
                s.attachments ++ [{ type := AttachmentType.image, data := img }] }, none))
    ∨ handleCaptureClick env s = (s, some CaptureError.captureUnsupported)
    ∨ handleCaptureClick env s = (s, some CaptureError.captureTimeout)
    ∨ handleCaptureClick env s = (s, some CaptureError.captureInternal) := by
  rcases env with ⟨cap, resp⟩
  cases cap
  · right
    left
    rfl
  · match resp with
    | none =>
        right
        right
        left
        rfl
    | some r =>
        rcases hr : isImageDataUrl r with _ | _
        · right
          right
          right
          simp [handleCaptureClick, capture, hr]
        · left
          exact ⟨r, by simp [capture, hr], hr,
            by simp [handleCaptureClick, capture, hr, handleSetAttachment]⟩

/-- Claim C3: a capture invocation that succeeds appends exactly one
attachment, of kind image, to the pending list, and its payload is a
well-formed image data URL. -/
theorem capture_success_appends_one_image (env : CaptureEnv) (s : ChatState)
    (img : String) (h : capture env = Except.ok img) :
    (handleCaptureClick env s).1.attachments
        = s.attachments ++ [{ type := AttachmentType.image, data := img }]
    ∧ isImageDataUrl img = true := by
  constructor
  · unfold handleCaptureClick
    rw [h]
    rfl
  · rcases env with ⟨cap, resp⟩
    cases cap
    · simp [capture] at h
    · match resp with
      | none => simp [capture] at h
      | some r =>
          rcases hr : isImageDataUrl r with _ | _
          · simp [capture, hr] at h
          · simp [capture, hr] at h
            rw [← h]
            exact hr

/-- Witness for C3: a concrete environment whose capture succeeds. -/
theorem capture_success_appends_one_image_witness :
    capture ⟨true, some "data:image/png;base64,iVBORw0K"⟩
        = Except.ok "data:image/png;base64,iVBORw0K"
    ∧ ((handleCaptureClick ⟨true, some "data:image/png;base64,iVBORw0K"⟩
          ⟨[], [], false⟩).1.attachments
        = ([] : List Attachment)
            ++ [{ type := AttachmentType.image, data := "data:image/png;base64,iVBORw0K" }]
      ∧ isImageDataUrl "data:image/png;base64,iVBORw0K" = true) :=
  ⟨rfl,
    capture_success_appends_one_image ⟨true, some "data:image/png;base64,iVBORw0K"⟩
      ⟨[], [], false⟩ "data:image/png;base64,iVBORw0K" rfl⟩

/-- Claim C4: a capture invocation that fails with any failure kind adds no
attachment: the resulting chat state — pending list contents included — is
exactly the state before the capture. -/
theorem capture_failure_adds_nothing (env : CaptureEnv) (s : ChatState)
    (e : CaptureError) (h : capture env = Except.error e) :
    (handleCaptureClick env s).1 = s := by
  unfold handleCaptureClick
  rw [h]

/-- Witness for C4: a concrete environment lacking the capture capability. -/
theorem capture_failure_adds_nothing_witness :
    capture ⟨false, none⟩ = Except.error CaptureError.captureUnsupported
    ∧ (handleCaptureClick ⟨false, none⟩
        ⟨[], [⟨AttachmentType.url, "u"⟩], false⟩).1
      = ⟨[], [⟨AttachmentType.url, "u"⟩], false⟩ :=
  ⟨rfl,
    capture_failure_adds_nothing ⟨false, none⟩ ⟨[], [⟨AttachmentType.url, "u"⟩], false⟩
      CaptureError.captureUnsupported rfl⟩

/-- The bookkeeping invariant of the trigger state machine: the number of
captures started exceeds the number resolved by one exactly while Capturing. -/
def TriggerInv (s : TriggerState) : Prop :=
  s.started = s.resolved + (if s.isCapturing then 1 else 0)

/-- One trigger step preserves the bookkeeping invariant. -/
theorem triggerStep_inv (s : TriggerState) (e : TriggerEvent)
    (h : TriggerInv s) : TriggerInv (triggerStep s e) := by
  rcases s with ⟨c, st, r⟩
  cases e <;> cases c <;>
    simp_all [TriggerInv, triggerStep]

/-- Running any sequence of events from an invariant state stays invariant. -/
theorem triggerFold_inv (events : List TriggerEvent) :
    ∀ s, TriggerInv s → TriggerInv (events.foldl triggerStep s) := by
  induction events with
  | nil => intro s h; exact h
  | cons e rest ih =>
      intro s h
      exact ih (triggerStep s e) (triggerStep_inv s e h)

/-- Claim C2: along every event sequence at most one capture is ever in
flight on the trigger, and a click while a capture is pending is a complete
no-op — it never starts a second concurrent attempt. -/
theorem capture_single_flight :
    (∀ events, inFlight (triggerRun events) ≤ 1)
    ∧ (∀ s : TriggerState, s.isCapturing = true
          → triggerStep s TriggerEvent.click = s) := by
  constructor
  · intro events
    have h := triggerFold_inv events triggerInit (by simp [TriggerInv, triggerInit])
    unfold TriggerInv at h
    unfold inFlight triggerRun
    rcases hc : (events.foldl triggerStep triggerInit).isCapturing with _ | _ <;>
      rw [hc] at h <;> simp at h <;> omega
  · intro s h
    unfold triggerStep
    rw [h]
    simp

/-- Witness for C2: two clicks in a row leave at most one in flight, and a
click in a concrete Capturing state changes nothing. -/
theorem capture_single_flight_witness :
    inFlight (triggerRun [TriggerEvent.click, TriggerEvent.click]) ≤ 1
    ∧ ((⟨true, 1, 0⟩ : TriggerState).isCapturing = true
        ∧ triggerStep ⟨true, 1, 0⟩ TriggerEvent.click = ⟨true, 1, 0⟩) :=
  ⟨capture_single_flight.1 [TriggerEvent.click, TriggerEvent.click],
    rfl, capture_single_flight.2 ⟨true, 1, 0⟩ rfl⟩

/-- `addAttachments` only appends to the pending list, in order. -/
theorem addAttachments_spec (atts : List Attachment) :
    ∀ s : ChatState, addAttachments s atts
      = { s with attachments := s.attachments ++ atts } := by
  induction atts with
  | nil =>
      intro s
      rcases s with ⟨m, a, l⟩
      simp [addAttachments]
  | cons a t ih =>
      intro s
      show addAttachments { s with attachments := s.attachments ++ [a] } t = _
      rw [ih]
      simp

/-- Evaluation of `handleSubmit` past its guard: the user message carrying
the pending attachments is pushed, the pending list is cleared, the loading
flag ends false, and the assistant tail depends on the stream outcome. -/
theorem handleSubmit_run (s : ChatState) (prompt : String) (o : StreamOutcome)
    (h1 : s.isLoading = false)
    (h2 : jsTrim prompt ≠ "" ∨ s.attachments ≠ []) :
    handleSubmit s prompt o =
      { messages := s.messages
          ++ { role := Role.user, content := prompt, attachments := s.attachments }
          :: (match o with
              | StreamOutcome.success full =>
                  [{ role := Role.assistant, content := full, attachments := [] }]
              | StreamOutcome.abortedWith b =>
                  if b == "" then []
                  else [{ role := Role.assistant, content := b, attachments := [] }]
              | _ => []),
        attachments := [],
        isLoading := false } := by
  have hguard : (s.isLoading || (jsTrim prompt == "" && s.attachments.length == 0))
      = false := by
    rcases h2 with h2 | h2 <;> simp [h1, h2, List.length_eq_zero]
  unfold handleSubmit
  rw [hguard]
  cases o with
  | createChatFailed => simp
  | success full => simp
  | abortedWith b =>
      rcases hb : (b == "") with _ | _ <;> simp [hb]
  | otherError => simp

/-- Claim C5: the sink appends each added attachment to the pending list; a
submit then carries exactly the pending attachments, in insertion order, on
the submitted user message, and the pending list is empty afterwards. -/
theorem submit_carries_pending_in_order (s : ChatState) (atts : List Attachment)
    (prompt : String) (o : StreamOutcome)
    (h1 : s.isLoading = false)
    (h2 : jsTrim prompt ≠ "" ∨ s.attachments ++ atts ≠ []) :
    (handleSubmit (addAttachments s atts) prompt o).attachments = []
    ∧ ∃ tail, (handleSubmit (addAttachments s atts) prompt o).messages
        = s.messages
            ++ ({ role := Role.user, content := prompt,
                  attachments := s.attachments ++ atts } : ChatMessage) :: tail := by
  rw [addAttachments_spec]
  rw [handleSubmit_run { s with attachments := s.attachments ++ atts } prompt o h1 h2]
  exact ⟨rfl, _, rfl⟩

/-- Witness for C5: one added url attachment rides the next submit. -/
theorem submit_carries_pending_in_order_witness :
    ((⟨[], [], false⟩ : ChatState).isLoading = false
      ∧ (jsTrim "hi" ≠ ""
          ∨ (⟨[], [], false⟩ : ChatState).attachments ++ [⟨AttachmentType.url, "u"⟩] ≠ []))
    ∧ ((handleSubmit (addAttachments ⟨[], [], false⟩ [⟨AttachmentType.url, "u"⟩]) "hi"
          (StreamOutcome.success "ok")).attachments = []
      ∧ ∃ tail, (handleSubmit (addAttachments ⟨[], [], false⟩ [⟨AttachmentType.url, "u"⟩])
            "hi" (StreamOutcome.success "ok")).messages
          = ([] : List ChatMessage)
              ++ ({ role := Role.user, content := "hi",
                    attachments := ([] : List Attachment) ++ [⟨AttachmentType.url, "u"⟩] }
                  : ChatMessage) :: tail) :=
  ⟨⟨rfl, Or.inl (by decide)⟩,
    submit_carries_pending_in_order ⟨[], [], false⟩ [⟨AttachmentType.url, "u"⟩] "hi"
      (StreamOutcome.success "ok") rfl (Or.inl (by decide))⟩

/-- Claim C7: a user-cancelled stream is handled locally — the submit ends
with the loading flag cleared rather than crashing — and a non-empty partial
reply is still appended to the transcript as an assistant message, right
after the submitted user message. -/
theorem abort_preserves_partial_reply (s : ChatState) (prompt buffered : String)
    (h1 : s.isLoading = false)
    (h2 : jsTrim prompt ≠ "" ∨ s.attachments ≠ [])
    (h3 : buffered ≠ "") :
    (handleSubmit s prompt (StreamOutcome.abortedWith buffered)).messages
      = s.messages
          ++ [{ role := Role.user, content := prompt, attachments := s.attachments },
              { role := Role.assistant, content := buffered, attachments := [] }]
    ∧ (handleSubmit s prompt (StreamOutcome.abortedWith buffered)).isLoading = false := by
  rw [handleSubmit_run s prompt (StreamOutcome.abortedWith buffered) h1 h2]
  have hb : (buffered == "") = false := by
    simp [h3]
  simp [hb]

/-- Witness for C7: a concrete cancelled stream with partial text "par". -/
theorem abort_preserves_partial_reply_witness :
    ((⟨[], [], false⟩ : ChatState).isLoading = false
      ∧ (jsTrim "why" ≠ "" ∨ (⟨[], [], false⟩ : ChatState).attachments ≠ [])
      ∧ "par" ≠ "")
    ∧ ((handleSubmit ⟨[], [], false⟩ "why" (StreamOutcome.abortedWith "par")).messages
        = ([] : List ChatMessage)
            ++ [{ role := Role.user, content := "why", attachments := [] },
                { role := Role.assistant, content := "par", attachments := [] }]
      ∧ (handleSubmit ⟨[], [], false⟩ "why"
          (StreamOutcome.abortedWith "par")).isLoading = false) :=
  ⟨⟨rfl, Or.inl (by decide), by decide⟩,
    abort_preserves_partial_reply ⟨[], [], false⟩ "why" "par" rfl
      (Or.inl (by decide)) (by decide)⟩

/-- The stream loop closes immediately on an exhausted text. -/
theorem streamLoop_nil (tick : Nat) (abortAt : Option Nat) :
    streamLoop [] tick abortAt = [] := by
  rw [streamLoop]
  split <;> rfl

/-- One unaborted tick of the stream loop emits a chunk of up to five
characters and advances the cursor by five. -/
theorem streamLoop_cons (c : Char) (cs : List Char) (tick : Nat) (abortAt : Option Nat)
    (h : abortedBy abortAt tick = false) :
    streamLoop (c :: cs) tick abortAt
      = (c :: cs).take 5 :: streamLoop ((c :: cs).drop 5) (tick + 1) abortAt := by
  rw [streamLoop, h]
  rfl

/-- Once the abort signal has fired, the loop closes without emitting. -/
theorem streamLoop_of_aborted (rest : List Char) (tick : Nat) (abortAt : Option Nat)
    (h : abortedBy abortAt tick = true) :
    streamLoop rest tick abortAt = [] := by
  rw [streamLoop.eq_def, h]
  rfl

/-- Without an abort, the emitted chunks concatenate back to the whole
remaining text. -/
theorem streamLoop_join (n : Nat) :
    ∀ rest : List Char, rest.length ≤ n → ∀ tick,
      (streamLoop rest tick none).join = rest := by
  induction n with
  | zero =>
      intro rest h tick
      have hnil : rest = [] := List.length_eq_zero.mp (Nat.le_zero.mp h)
      subst hnil
      rw [streamLoop_nil]
      rfl
  | succ n ih =>
      intro rest h tick
      match rest with
      | [] =>
          rw [streamLoop_nil]
          rfl
      | c :: cs =>
          rw [streamLoop_cons c cs tick none rfl]
          have hlen : ((c :: cs).drop 5).length ≤ n := by
            simp only [List.length_drop, List.length_cons]
            simp only [List.length_cons] at h
            omega
          simp only [List.join_cons, ih ((c :: cs).drop 5) hlen (tick + 1),
            List.take_append_drop]

/-- Every emitted chunk has at most five characters. -/
theorem streamLoop_chunk_bound (n : Nat) :
    ∀ rest : List Char, rest.length ≤ n → ∀ tick abortAt,
      ((streamLoop rest tick abortAt).all (fun c => decide (c.length ≤ 5))) = true := by
  induction n with
  | zero =>
      intro rest h tick abortAt
      have hnil : rest = [] := List.length_eq_zero.mp (Nat.le_zero.mp h)
      subst hnil
      rw [streamLoop_nil]
      rfl
  | succ n ih =>
      intro rest h tick abortAt
      match rest with
      | [] =>
          rw [streamLoop_nil]
          rfl
      | c :: cs =>
          rcases hab : abortedBy abortAt tick with _ | _
          · rw [streamLoop_cons c cs tick abortAt hab]
            have hlen : ((c :: cs).drop 5).length ≤ n := by
              simp only [List.length_drop, List.length_cons]
              simp only [List.length_cons] at h
              omega
            simp only [List.all_cons, ih ((c :: cs).drop 5) hlen (tick + 1) abortAt,
              Bool.and_true]
            simp [List.length_take]
          · rw [streamLoop_of_aborted _ _ _ hab]
            rfl

/-- With the abort signal firing at tick `t`, the loop emits exactly the
first `t - tick` chunks the unaborted loop would emit, then closes. -/
theorem streamLoop_abort_take (n : Nat) :
    ∀ rest : List Char, rest.length ≤ n → ∀ tick t,
      streamLoop rest tick (some t) = (streamLoop rest tick none).take (t - tick) := by
  induction n with
  | zero =>
      intro rest h tick t
      have hnil : rest = [] := List.length_eq_zero.mp (Nat.le_zero.mp h)
      subst hnil
      rw [streamLoop_nil, streamLoop_nil, List.take_nil]
  | succ n ih =>
      intro rest h tick t
      by_cases habt : t ≤ tick
      · have hab : abortedBy (some t) tick = true := by
          simp [abortedBy, habt]
        rw [streamLoop_of_aborted _ _ _ hab]
        have ht0 : t - tick = 0 := by omega
        rw [ht0, List.take_zero]
      · have hab : abortedBy (some t) tick = false := by
          simp only [abortedBy, decide_eq_false_iff_not]
          omega
        match rest with
        | [] =>
            rw [streamLoop_nil, streamLoop_nil, List.take_nil]
        | c :: cs =>
            rw [streamLoop_cons c cs tick (some t) hab, streamLoop_cons c cs tick none rfl]
            have hlen : ((c :: cs).drop 5).length ≤ n := by
              simp only [List.length_drop, List.length_cons]
              simp only [List.length_cons] at h
              omega
            have hk : t - tick = (t - (tick + 1)) + 1 := by omega
            rw [hk, ih ((c :: cs).drop 5) hlen (tick + 1) t]
            simp

/-- Claim C6: `streamMessage` yields a finite chunk sequence: run without an
abort it emits the whole canned text in chunks of at most five characters and
closes; and once the abort signal fires (at any tick `t`) no further chunk is
emitted — the result is exactly the first `t` chunks of the unaborted run,
then the stream closes. -/
theorem streamMessage_finite_cancellable :
    (streamMessage none).join = mockText.toList
    ∧ ((streamMessage none).all (fun c => decide (c.length ≤ 5))) = true
    ∧ ∀ t, streamMessage (some t) = (streamMessage none).take t := by
  refine ⟨?_, ?_, ?_⟩
  · exact streamLoop_join mockText.toList.length mockText.toList (Nat.le_refl _) 0
  · exact streamLoop_chunk_bound mockText.toList.length mockText.toList (Nat.le_refl _)
      0 none
  · intro t
    have h := streamLoop_abort_take mockText.toList.length mockText.toList
      (Nat.le_refl _) 0 t
    simpa [streamMessage] using h

end Tradeberg
